import Mathlib

/-!
Shallow embedding of the review-scheduling / mastery-tracking core of
`src/index.tsx` (a wrong-question review app), together with proofs of the
specification's claims about it.

Modelling conventions:
* TypeScript `number` timestamps (epoch milliseconds) are `Nat`.
* `new Date(ts)` / `getFullYear` / `getMonth()+1` / `getDate()` are modelled by
  a civil-date record `JSDate` carrying the year, 1-based month and day-of-month
  that the platform's date library derives from a timestamp.
* Template-literal interpolation of a number (`${year}`) renders its decimal
  representation, modelled by `Nat.repr`.
* The union type `'mastered' | 'review_needed' | null` becomes `Option Mastery`.
* React `useState` slots touched by one handler are gathered into explicit
  state records (`ReviewState` for the ReviewMode component, the global
  question list for the App component); each handler becomes a pure function
  from old state to new state.
* `Math.random()`-driven comparison outcomes are modelled by an arbitrary
  boolean stream `σ : Nat → Bool`; the sort-with-random-comparator shuffle
  becomes an insertion procedure whose comparisons are drawn from `σ`.
-/

set_option linter.unusedVariables false

/-- The `subject` union `'职测' | '综应'` from `src/index.tsx`.
`zhice` = 职测, `zongying` = 综应. -/
inductive Subject
  | zhice
  | zongying
deriving DecidableEq, Repr

/-- The `QuestionCategory` union from `src/index.tsx` (eight string literals,
transliterated): 言语理解与表达, 数量关系, 判断推理, 资料分析, 常识判断,
综合应用-案例分析, 综合应用-文书写作, 其他. -/
inductive QuestionCategory
  | yanyu
  | shuliang
  | panduan
  | ziliao
  | changshi
  | anli
  | wenshu
  | qita
deriving DecidableEq, Repr

/-- The non-null mastery states `'mastered' | 'review_needed'`;
the field itself is `Option Mastery`, with `none` for `null`/absent. -/
inductive Mastery
  | mastered
  | review_needed
deriving DecidableEq, Repr

/-- The `Question` interface from `src/index.tsx` lines 20-35.
`rootCause` is optional in TS but always supplied by `handleSave` (default
empty string), so it is a plain `String` here. -/
structure Question where
  id : String
  imageUrl : String
  subject : Subject
  category : QuestionCategory
  subCategory : String
  questionText : String
  aiAnalysis : String
  myThinking : String
  correctResolution : String
  rootCause : String
  masteryStatus : Option Mastery
  createdAt : Nat
  reviewCount : Nat
  lastReviewedAt : Option Nat
deriving DecidableEq, Repr

/-- Placeholder record used only as the default of out-of-bounds `List.getD`
lookups in theorem statements (the claims only concern in-bounds indices). -/
def defaultQ : Question :=
  { id := ""
    imageUrl := ""
    subject := .zhice
    category := .yanyu
    subCategory := ""
    questionText := ""
    aiAnalysis := ""
    myThinking := ""
    correctResolution := ""
    rootCause := ""
    masteryStatus := none
    createdAt := 0
    reviewCount := 0
    lastReviewedAt := none }

/-- The civil date the platform derives from a timestamp: `getFullYear()`,
`getMonth() + 1` and `getDate()` of `new Date(ts)`. -/
structure JSDate where
  year : Nat
  month : Nat
  day : Nat
deriving DecidableEq, Repr

/-- `getPeriodKey` from `src/index.tsx` lines 57-64: renders
`${year}年${month}月${part}` with `part = day <= 15 ? '上半月' : '下半月'`. -/
def getPeriodKey (d : JSDate) : String :=
  let part := if d.day ≤ 15 then "上半月" else "下半月"
  Nat.repr d.year ++ "年" ++ Nat.repr d.month ++ "月" ++ part

/-- Decimal interpretation of a list of digit characters (most significant
first), as `parseInt` does on an all-digit string. -/
def decodeDigits (l : List Char) : Nat :=
  l.foldl (fun acc c => 10 * acc + (c.toNat - 48)) 0

/-- The key parser `parse` inside the `periods` sort comparator,
`src/index.tsx` lines 615-622: match `(\d+)年(\d+)月(.+)` against the key,
return `y * 1000 + m * 10 + p` with `p = 0` for 上半月 and `1` otherwise,
or `0` when the key does not match. -/
def parse (k : String) : Nat :=
  let cs := k.toList
  let ds1 := cs.takeWhile (fun c => c.isDigit)
  match cs.dropWhile (fun c => c.isDigit) with
  | [] => 0
  | c1 :: r2 =>
    if c1 = '年' then
      let ds2 := r2.takeWhile (fun c => c.isDigit)
      match r2.dropWhile (fun c => c.isDigit) with
      | [] => 0
      | c2 :: r3 =>
        if c2 = '月' then
          if ds1 = [] ∨ ds2 = [] ∨ r3 = [] then 0
          else
            decodeDigits ds1 * 1000 + decodeDigits ds2 * 10 +
              (if String.mk r3 = "上半月" then 0 else 1)
        else 0
    else 0

instance decParseRel : DecidableRel (fun (a b : String) => parse b ≤ parse a) :=
  fun _ _ => Nat.decLe _ _

instance totalParseRel : IsTotal String (fun a b => parse b ≤ parse a) :=
  ⟨fun a b => Nat.le_total (parse b) (parse a)⟩

instance transParseRel : IsTrans String (fun a b => parse b ≤ parse a) :=
  ⟨fun _ _ _ hab hbc => Nat.le_trans hbc hab⟩

/-- The period-key sort of `src/index.tsx` lines 613-624:
`Object.keys(periodGroups).sort((a, b) => parse(b) - parse(a))`, i.e. a stable
sort placing keys with larger `parse` value first. -/
def sortPeriods (ks : List String) : List String :=
  List.insertionSort (fun a b => parse b ≤ parse a) ks

/-- Tab modes of the ReviewMode component: `'list' | 'exam'`. -/
inductive Mode
  | list
  | exam
deriving DecidableEq, Repr

/-- Pool filter modes of the ReviewMode component: `'all' | 'priority'`. -/
inductive FilterMode
  | all
  | priority
deriving DecidableEq, Repr

/-- The `useState` slots of the ReviewMode component that the session
handlers read and write (`src/index.tsx` lines 533-537). -/
structure ReviewState where
  mode : Mode
  examQuestions : List Question
  currentExamIndex : Nat
  showAnswer : Bool
  examTitle : String
deriving DecidableEq, Repr

/-- One step of the sort-with-random-comparator shuffle: insert `x` into the
already-processed list, each comparison outcome drawn from the stream `σ` at
the next index `k`; returns the new list and the next unused stream index. -/
def insertRand (σ : Nat → Bool) : Nat → Question → List Question → List Question × Nat
  | k, x, [] => ([x], k)
  | k, x, y :: ys =>
    if σ k then (x :: y :: ys, k + 1)
    else
      let r := insertRand σ (k + 1) x ys
      (y :: r.1, r.2)

/-- Model of `[...pool].sort(() => 0.5 - Math.random())` from `src/index.tsx`
lines 550 and 560: a comparison-driven rearrangement of the pool where every
comparison outcome is random (drawn from `σ`). Whatever the outcomes, the
result is a rearrangement of the input, which is the property the claims
rely on. -/
def shuffleRand (σ : Nat → Bool) (l : List Question) : List Question :=
  (l.foldl (fun acc x => insertRand σ acc.2 x acc.1) (([] : List Question), 0)).1

/-- `startRandomExam` from `src/index.tsx` lines 540-556: filter the pool when
`filterMode` is `priority`, report 当前列表没有题目可考！ and leave the state
unchanged when the pool is empty, otherwise enter exam mode on a shuffled
copy of the pool. The returned `Option String` is the `alert` message. -/
def startRandomExam (σ : Nat → Bool) (questions : List Question)
    (filterMode : FilterMode) (st : ReviewState) : ReviewState × Option String :=
  let pool :=
    if filterMode = .priority then
      questions.filter (fun q => q.masteryStatus = some .review_needed)
    else questions
  if pool.length = 0 then (st, some "当前列表没有题目可考！")
  else
    ({ mode := .exam
       examQuestions := shuffleRand σ pool
       currentExamIndex := 0
       showAnswer := false
       examTitle := if filterMode = .priority then "重点题目突击" else "随机巩固练习" },
     none)

/-- The record transformation `{ ...q, masteryStatus: status }` performed by
`handleUpdateMastery` (`src/index.tsx` line 569). -/
def setMasteryStatus (q : Question) (status : Option Mastery) : Question :=
  { q with masteryStatus := status }

/-- `handleUpdateQuestion` from `src/index.tsx` lines 887-891: replace every
record whose `id` equals `q.id` by `q`, leaving the rest in place. -/
def handleUpdateQuestion (questions : List Question) (q : Question) : List Question :=
  questions.map (fun item => if item.id = q.id then q else item)

/-- `handleUpdateMastery` from `src/index.tsx` lines 568-576: build the updated
record, write it into the exam array at the current index, and propagate it to
the global collection via `handleUpdateQuestion`. -/
def handleUpdateMastery (q : Question) (status : Option Mastery)
    (st : ReviewState) (questions : List Question) : ReviewState × List Question :=
  let updatedQ := setMasteryStatus q status
  ({ st with examQuestions := st.examQuestions.set st.currentExamIndex updatedQ },
   handleUpdateQuestion questions updatedQ)

/-- `handleNext` from `src/index.tsx` lines 578-602: bump the current
question's `reviewCount` (the source reads `(currentQ.reviewCount || 0) + 1`;
on a `Nat` count this is `reviewCount + 1`), stamp `lastReviewedAt` with the
current time, write the record back into both the exam array and the global
collection, then either advance the index (resetting the reveal flag) or, at
the last question, leave exam mode. -/
def handleNext (now : Nat) (st : ReviewState) (questions : List Question) :
    ReviewState × List Question :=
  let currentQ := st.examQuestions.getD st.currentExamIndex defaultQ
  let updatedQ :=
    { currentQ with reviewCount := currentQ.reviewCount + 1, lastReviewedAt := some now }
  let questions1 := handleUpdateQuestion questions updatedQ
  let examQs := st.examQuestions.set st.currentExamIndex updatedQ
  if st.currentExamIndex < st.examQuestions.length - 1 then
    ({ st with
        examQuestions := examQs
        currentExamIndex := st.currentExamIndex + 1
        showAnswer := false },
     questions1)
  else
    ({ st with examQuestions := examQs, mode := .list }, questions1)

/-- The 上一题 button of the exam view, `src/index.tsx` lines 710-719: it is
`disabled` when `currentExamIndex === 0` (no transition can fire there); when
enabled its handler sets the index to `Math.max(0, i - 1)` and resets
`showAnswer` to `false`. -/
def prevButton (st : ReviewState) : ReviewState :=
  if st.currentExamIndex = 0 then st
  else { st with currentExamIndex := max 0 (st.currentExamIndex - 1), showAnswer := false }

/-- The form fields of the AddQuestion component consumed by `handleSave`. -/
structure AddForm where
  image : String
  subject : Subject
  category : QuestionCategory
  subCategory : String
  aiAnalysis : String
  myThinking : String
  correctResolution : String
  rootCause : String
  tempMastery : Option Mastery
deriving DecidableEq, Repr

/-- `handleSave` from `src/index.tsx` lines 319-338: the new record's `id` is
`Date.now().toString()` and `createdAt` is `Date.now()`, modelled by the one
millisecond timestamp `now` at which the save runs; `questionText` is the
constant `'Image Question'`; `reviewCount` starts at 0 and `lastReviewedAt`
at null. -/
def handleSave (now : Nat) (f : AddForm) : Question :=
  { id := Nat.repr now
    imageUrl := f.image
    subject := f.subject
    category := f.category
    subCategory := f.subCategory
    questionText := "Image Question"
    aiAnalysis := f.aiAnalysis
    myThinking := f.myThinking
    correctResolution := f.correctResolution
    rootCause := f.rootCause
    masteryStatus := f.tempMastery
    createdAt := now
    reviewCount := 0
    lastReviewedAt := none }

/-- `handleSaveQuestion` from `src/index.tsx` lines 880-885: prepend the new
record to the collection. -/
def handleSaveQuestion (q : Question) (questions : List Question) : List Question :=
  q :: questions

/-- A sequence of creation operations: each entry is the millisecond timestamp
at which the save button fires together with the form contents; the store
starts empty and each operation prepends `handleSave`'s record. -/
def createRun (ops : List (Nat × AddForm)) : List Question :=
  ops.foldl (fun qs op => handleSaveQuestion (handleSave op.1 op.2) qs) []

/-! ### Persistence: `loadQuestions` and a model of the platform JSON parser

`loadQuestions` (`src/index.tsx` lines 50-53) reads the storage slot and runs
`JSON.parse` on it unguarded; `JSON.parse` is a platform builtin, modelled
below as a recursive-descent parser over the JSON value grammar that returns
`Except`: `.error` models the `SyntaxError` the builtin throws on malformed
input. The reference code does not validate the parsed value against the
`Question[]` shape, so the model keeps the untyped parsed `Json` value. -/

/-- Parsed JSON values (the model keeps numbers integral and strings
escape-free, which is all the stored collection format uses). -/
inductive Json where
  | null : Json
  | bool (b : Bool) : Json
  | num (n : Int) : Json
  | str (s : String) : Json
  | arr (xs : List Json) : Json
  | obj (kvs : List (String × Json)) : Json

/-- Opening brace character. -/
def lbrace : Char := Char.ofNat 123

/-- Closing brace character. -/
def rbrace : Char := Char.ofNat 125

/-- Drop leading JSON whitespace. -/
def skipWs : List Char → List Char
  | [] => []
  | c :: cs => if c = ' ' ∨ c = '\n' ∨ c = '\t' ∨ c = '\r' then skipWs cs else c :: cs

/-- Scan a string literal body up to its closing quote (escape sequences are
outside the modelled fragment); returns the body and the remainder. -/
def takeStr : List Char → Option (List Char × List Char)
  | [] => none
  | c :: cs =>
    if c = '"' then some ([], cs)
    else (takeStr cs).map (fun r => (c :: r.1, r.2))

mutual

/-- Parse one JSON value; `Except.error` models the thrown `SyntaxError`. -/
def parseVal : Nat → List Char → Except String (Json × List Char)
  | 0, _ => .error "Unexpected end of JSON input"
  | fuel + 1, cs =>
    match skipWs cs with
    | [] => .error "Unexpected end of JSON input"
    | c :: rest =>
      if c = 'n' then
        match rest with
        | 'u' :: 'l' :: 'l' :: r => .ok (Json.null, r)
        | _ => .error "Unexpected token"
      else if c = 't' then
        match rest with
        | 'r' :: 'u' :: 'e' :: r => .ok (Json.bool true, r)
        | _ => .error "Unexpected token"
      else if c = 'f' then
        match rest with
        | 'a' :: 'l' :: 's' :: 'e' :: r => .ok (Json.bool false, r)
        | _ => .error "Unexpected token"
      else if c = '"' then
        match takeStr rest with
        | some (s, r) => .ok (Json.str (String.mk s), r)
        | none => .error "Unterminated string in JSON"
      else if c.isDigit then
        .ok (Json.num (Int.ofNat (decodeDigits ((c :: rest).takeWhile (fun x => x.isDigit)))),
             (c :: rest).dropWhile (fun x => x.isDigit))
      else if c = '-' then
        match rest.takeWhile (fun x => x.isDigit) with
        | [] => .error "Unexpected token"
        | ds => .ok (Json.num (-(Int.ofNat (decodeDigits ds))),
                     rest.dropWhile (fun x => x.isDigit))
      else if c = '[' then
        match skipWs rest with
        | ']' :: r => .ok (Json.arr [], r)
        | _ => parseElems fuel rest []
      else if c = lbrace then
        match skipWs rest with
        | c2 :: r => if c2 = rbrace then .ok (Json.obj [], r) else parseMembers fuel rest []
        | [] => .error "Unexpected end of JSON input"
      else .error "Unexpected token"

/-- Parse the comma-separated elements of an array (after the opening
bracket), accumulating into `acc`. -/
def parseElems : Nat → List Char → List Json → Except String (Json × List Char)
  | 0, _, _ => .error "Unexpected end of JSON input"
  | fuel + 1, cs, acc =>
    match parseVal fuel cs with
    | .error e => .error e
    | .ok (v, r) =>
      match skipWs r with
      | ',' :: r2 => parseElems fuel r2 (acc ++ [v])
      | ']' :: r2 => .ok (Json.arr (acc ++ [v]), r2)
      | _ => .error "Expected comma or closing bracket"

/-- Parse the comma-separated members of an object (after the opening brace),
accumulating into `acc`. -/
def parseMembers : Nat → List Char → List (String × Json) → Except String (Json × List Char)
  | 0, _, _ => .error "Unexpected end of JSON input"
  | fuel + 1, cs, acc =>
    match skipWs cs with
    | [] => .error "Unexpected end of JSON input"
    | c :: r =>
      if c = '"' then
        match takeStr r with
        | none => .error "Unterminated string in JSON"
        | some (k, r2) =>
          match skipWs r2 with
          | ':' :: r3 =>
            match parseVal fuel r3 with
            | .error e => .error e
            | .ok (v, r4) =>
              match skipWs r4 with
              | [] => .error "Unexpected end of JSON input"
              | c2 :: r5 =>
                if c2 = ',' then parseMembers fuel r5 (acc ++ [(String.mk k, v)])
                else if c2 = rbrace then .ok (Json.obj (acc ++ [(String.mk k, v)]), r5)
                else .error "Expected comma or closing brace"
          | _ => .error "Expected colon"
      else .error "Expected string key"

end

/-- Model of the platform `JSON.parse`: parse one value, require only trailing
whitespace after it; any failure is the thrown `SyntaxError`. -/
def parseJson (s : String) : Except String Json :=
  match parseVal (s.length + 1) s.toList with
  | .error e => .error e
  | .ok (v, r) =>
    match skipWs r with
    | [] => .ok v
    | _ => .error "Unexpected trailing characters"

/-- `loadQuestions` from `src/index.tsx` lines 50-53:
`data ? JSON.parse(data) : []` — an absent slot yields the empty collection;
a present slot is fed to `JSON.parse` unguarded, so a parse failure
propagates as a thrown error (`Except.error`). -/
def loadQuestions (stored : Option String) : Except String Json :=
  match stored with
  | some data => parseJson data
  | none => .ok (Json.arr [])

/-! ### Concrete sample data

Sample records used only by the closed witness and counterexample theorems. -/

/-- A sample stored question marked for priority review. -/
def sampleQ1 : Question :=
  { defaultQ with id := "1", subCategory := "q1", masteryStatus := some .review_needed,
                  reviewCount := 3 }

/-- A second sample question, already mastered. -/
def sampleQ2 : Question :=
  { defaultQ with id := "2", subCategory := "q2", masteryStatus := some .mastered,
                  reviewCount := 5 }

/-- A sample in-exam component state positioned on the first question with the
answer revealed. -/
def sampleState : ReviewState :=
  { mode := .exam
    examQuestions := [sampleQ1, sampleQ2]
    currentExamIndex := 0
    showAnswer := true
    examTitle := "随机巩固练习" }

/-- The sample state positioned on the second question. -/
def sampleState1 : ReviewState :=
  { sampleState with currentExamIndex := 1 }

/-- A sample filled-in capture form. -/
def sampleForm : AddForm :=
  { image := "img"
    subject := .zhice
    category := .yanyu
    subCategory := "a"
    aiAnalysis := ""
    myThinking := ""
    correctResolution := ""
    rootCause := ""
    tempMastery := none }

/-- A second capture form differing from `sampleForm` in its `subCategory`. -/
def sampleFormB : AddForm :=
  { sampleForm with subCategory := "b" }

/-! ## Infrastructure: decimal rendering facts

The period key and the question id are rendered through `Nat.repr`
(JavaScript's decimal `toString` on a number). The claims need that this
rendering consists of digit characters only, that it is injective, and that
decimal decoding inverts it. -/

theorem digitChar_isDigit (d : Nat) (h : d < 10) : (Nat.digitChar d).isDigit = true := by
  interval_cases d <;> decide

theorem digitChar_decode (d : Nat) (h : d < 10) : (Nat.digitChar d).toNat - 48 = d := by
  interval_cases d <;> decide

theorem toDigitsCore_all_digits (fuel : Nat) :
    ∀ (n : Nat) (ds : List Char), (∀ c ∈ ds, c.isDigit = true) →
      ∀ c ∈ Nat.toDigitsCore 10 fuel n ds, c.isDigit = true := by
  induction fuel with
  | zero => intro n ds hds; simpa [Nat.toDigitsCore] using hds
  | succ fuel ih =>
    intro n ds hds
    simp only [Nat.toDigitsCore]
    have hd : (Nat.digitChar (n % 10)).isDigit = true :=
      digitChar_isDigit _ (Nat.mod_lt _ (by norm_num))
    split
    · intro c hc
      rcases List.mem_cons.mp hc with h | h
      · subst h; exact hd
      · exact hds c h
    · refine ih (n / 10) _ ?_
      intro c hc
      rcases List.mem_cons.mp hc with h | h
      · subst h; exact hd
      · exact hds c h

theorem toDigitsCore_foldl (fuel : Nat) :
    ∀ (n : Nat), n < fuel → ∀ (ds : List Char),
      (Nat.toDigitsCore 10 fuel n ds).foldl (fun acc c => 10 * acc + (c.toNat - 48)) 0
        = ds.foldl (fun acc c => 10 * acc + (c.toNat - 48)) n := by
  induction fuel with
  | zero => intro n hn; omega
  | succ fuel ih =>
    intro n hn ds
    have hmod : (Nat.digitChar (n % 10)).toNat - 48 = n % 10 :=
      digitChar_decode _ (Nat.mod_lt _ (by norm_num))
    simp only [Nat.toDigitsCore]
    split
    · next h0 =>
      simp only [List.foldl, hmod]
      have hlt : n % 10 = n := by omega
      rw [Nat.mul_zero, Nat.zero_add, hlt]
    · next h0 =>
      rw [ih (n / 10) (by omega)]
      simp only [List.foldl, hmod]
      congr 1
      omega

theorem toDigitsCore_append (fuel : Nat) :
    ∀ (n : Nat) (ds : List Char),
      Nat.toDigitsCore 10 fuel n ds = Nat.toDigitsCore 10 fuel n [] ++ ds := by
  induction fuel with
  | zero => intro n ds; simp [Nat.toDigitsCore]
  | succ fuel ih =>
    intro n ds
    simp only [Nat.toDigitsCore]
    split
    · simp
    · rw [ih (n / 10) (Nat.digitChar (n % 10) :: ds), ih (n / 10) [Nat.digitChar (n % 10)]]
      simp

theorem decodeDigits_repr (n : Nat) : decodeDigits (Nat.repr n).data = n := by
  have h := toDigitsCore_foldl (n + 1) n (Nat.lt_succ_self n) []
  simpa [Nat.repr, Nat.toDigits, List.asString, decodeDigits] using h

theorem repr_all_digits (n : Nat) : ∀ c ∈ (Nat.repr n).data, c.isDigit = true := by
  have h := toDigitsCore_all_digits (n + 1) n [] (by intro c hc; cases hc)
  simpa [Nat.repr, Nat.toDigits, List.asString] using h

theorem repr_injective {m n : Nat} (h : Nat.repr m = Nat.repr n) : m = n := by
  have h2 := congrArg (fun s => decodeDigits s.data) h
  simpa [decodeDigits_repr] using h2

theorem repr_data_ne_nil (n : Nat) : (Nat.repr n).data ≠ [] := by
  simp only [Nat.repr, Nat.toDigits, List.asString]
  simp only [Nat.toDigitsCore]
  split
  · simp
  · rw [toDigitsCore_append]
    simp

theorem digits_sep_split {sep : Char} (hsep : sep.isDigit = false) :
    ∀ (l1 l2 r1 r2 : List Char),
      (∀ c ∈ l1, c.isDigit = true) → (∀ c ∈ l2, c.isDigit = true) →
      l1 ++ sep :: r1 = l2 ++ sep :: r2 → l1 = l2 ∧ r1 = r2 := by
  intro l1
  induction l1 with
  | nil =>
    intro l2 r1 r2 h1 h2 heq
    cases l2 with
    | nil => simpa using heq
    | cons c l2' =>
      exfalso
      simp only [List.nil_append, List.cons_append, List.cons.injEq] at heq
      have hc := h2 c (by simp)
      rw [← heq.1, hsep] at hc
      exact Bool.noConfusion hc
  | cons c l1' ih =>
    intro l2 r1 r2 h1 h2 heq
    cases l2 with
    | nil =>
      exfalso
      simp only [List.cons_append, List.nil_append, List.cons.injEq] at heq
      have hc := h1 c (by simp)
      rw [heq.1, hsep] at hc
      exact Bool.noConfusion hc
    | cons c2 l2' =>
      simp only [List.cons_append, List.cons.injEq] at heq
      obtain ⟨hc, hrest⟩ := heq
      obtain ⟨he1, he2⟩ :=
        ih l2' r1 r2 (fun x hx => h1 x (by simp [hx])) (fun x hx => h2 x (by simp [hx])) hrest
      exact ⟨by rw [hc, he1], he2⟩

theorem takeWhile_all_append {p : Char → Bool} :
    ∀ (l1 : List Char) (c : Char) (l2 : List Char),
      (∀ x ∈ l1, p x = true) → p c = false →
      (l1 ++ c :: l2).takeWhile p = l1 ∧ (l1 ++ c :: l2).dropWhile p = c :: l2 := by
  intro l1
  induction l1 with
  | nil => intro c l2 h1 hc; simp [List.takeWhile_cons, List.dropWhile_cons, hc]
  | cons a l1' ih =>
    intro c l2 h1 hc
    have ha : p a = true := h1 a (by simp)
    obtain ⟨ht, hd⟩ := ih c l2 (fun x hx => h1 x (by simp [hx])) hc
    simp [List.takeWhile_cons, List.dropWhile_cons, ha, ht, hd]

/-! ## Infrastructure: the random shuffle permutes its input -/

theorem insertRand_perm (σ : Nat → Bool) :
    ∀ (ys : List Question) (k : Nat) (x : Question),
      ((insertRand σ k x ys).1).Perm (x :: ys) := by
  intro ys
  induction ys with
  | nil => intro k x; simp [insertRand]
  | cons y ys ih =>
    intro k x
    simp only [insertRand]
    split
    · exact List.Perm.refl _
    · exact ((ih (k + 1) x).cons y).trans (List.Perm.swap x y ys)

theorem shuffleRand_foldl_perm (σ : Nat → Bool) :
    ∀ (l : List Question) (acc : List Question × Nat),
      ((l.foldl (fun acc x => insertRand σ acc.2 x acc.1) acc).1).Perm (l ++ acc.1) := by
  intro l
  induction l with
  | nil => intro acc; simp
  | cons x l ih =>
    intro acc
    simp only [List.foldl]
    refine (ih _).trans ?_
    have h1 : (l ++ (insertRand σ acc.2 x acc.1).1).Perm (l ++ (x :: acc.1)) :=
      List.Perm.append_left l (insertRand_perm σ acc.1 acc.2 x)
    exact h1.trans List.perm_middle

theorem shuffleRand_perm (σ : Nat → Bool) (l : List Question) :
    (shuffleRand σ l).Perm l := by
  have h := shuffleRand_foldl_perm σ l ([], 0)
  simpa [shuffleRand] using h

/-! ## Infrastructure: update-by-id facts -/

theorem handleUpdateQuestion_length (questions : List Question) (q : Question) :
    (handleUpdateQuestion questions q).length = questions.length :=
  List.length_map _ _

theorem handleUpdateQuestion_getD (questions : List Question) (q : Question) (j : Nat)
    (hj : j < questions.length) :
    (handleUpdateQuestion questions q).getD j defaultQ =
      (if (questions.getD j defaultQ).id = q.id then q else questions.getD j defaultQ) := by
  simp only [handleUpdateQuestion, List.getD_eq_getElem?_getD, List.getElem?_map]
  rw [List.getElem?_eq_getElem hj]
  simp

theorem handleUpdateQuestion_getD_ne (questions : List Question) (q : Question) (j : Nat)
    (hid : (questions.getD j defaultQ).id ≠ q.id) :
    (handleUpdateQuestion questions q).getD j defaultQ = questions.getD j defaultQ := by
  by_cases hj : j < questions.length
  · rw [handleUpdateQuestion_getD questions q j hj, if_neg hid]
  · have h1 : questions[j]? = none := List.getElem?_eq_none (by omega)
    have h2 : (handleUpdateQuestion questions q)[j]? = none :=
      List.getElem?_eq_none (by rw [handleUpdateQuestion_length]; omega)
    simp [List.getD_eq_getElem?_getD, h1, h2]

theorem handleUpdateQuestion_no_match (questions : List Question) (q : Question)
    (h : ∀ item ∈ questions, item.id ≠ q.id) :
    handleUpdateQuestion questions q = questions := by
  simp only [handleUpdateQuestion]
  conv_rhs => rw [← List.map_id questions]
  exact List.map_congr_left (fun x hx => by simp [h x hx])

/-! ## Claims -/

/-- C5: `setMasteryStatus` (the `{ ...q, masteryStatus: status }` update of
`handleUpdateMastery`) sets `masteryStatus` to the requested status and leaves
every other field of the record unchanged. -/
theorem setMasteryStatus_frame (q : Question) (s : Mastery) :
    (setMasteryStatus q (some s)).masteryStatus = some s ∧
    (setMasteryStatus q (some s)).id = q.id ∧
    (setMasteryStatus q (some s)).subject = q.subject ∧
    (setMasteryStatus q (some s)).category = q.category ∧
    (setMasteryStatus q (some s)).subCategory = q.subCategory ∧
    (setMasteryStatus q (some s)).questionText = q.questionText ∧
    (setMasteryStatus q (some s)).aiAnalysis = q.aiAnalysis ∧
    (setMasteryStatus q (some s)).myThinking = q.myThinking ∧
    (setMasteryStatus q (some s)).correctResolution = q.correctResolution ∧
    (setMasteryStatus q (some s)).rootCause = q.rootCause ∧
    (setMasteryStatus q (some s)).createdAt = q.createdAt ∧
    (setMasteryStatus q (some s)).reviewCount = q.reviewCount ∧
    (setMasteryStatus q (some s)).lastReviewedAt = q.lastReviewedAt ∧
    (setMasteryStatus q (some s)).imageUrl = q.imageUrl :=
  ⟨rfl, rfl, rfl, rfl, rfl, rfl, rfl, rfl, rfl, rfl, rfl, rfl, rfl, rfl⟩

/-- C6: when the filtered pool is empty, `startRandomExam` reports the
empty-pool alert and leaves the component state unchanged — no session over
zero questions is started and no crash occurs. -/
theorem startRandomExam_empty (σ : Nat → Bool) (questions : List Question)
    (filterMode : FilterMode) (st : ReviewState)
    (h : (if filterMode = .priority then
            questions.filter (fun q => q.masteryStatus = some .review_needed)
          else questions) = []) :
    startRandomExam σ questions filterMode st = (st, some "当前列表没有题目可考！") := by
  simp only [startRandomExam, h]
  simp

/-- Witness for C6 at a concrete input: the all-questions pool over the empty
collection is empty, and selection leaves the state unchanged while reporting
the alert. -/
theorem startRandomExam_empty_witness :
    (if FilterMode.all = FilterMode.priority then
        List.filter (fun q => q.masteryStatus = some .review_needed) []
      else []) = ([] : List Question) ∧
    startRandomExam (fun _ => true) [] .all sampleState =
      (sampleState, some "当前列表没有题目可考！") :=
  ⟨by decide, startRandomExam_empty (fun _ => true) [] .all sampleState (by decide)⟩

/-- C10: the store update `handleUpdateQuestion` preserves length and relative
order (position `j` of the result is position `j` of the input, replaced by
`q` exactly when its id matches), leaves every record with a different id
unchanged, and is a silent no-op when no record matches `q.id`. -/
theorem handleUpdateQuestion_frame (questions : List Question) (q : Question) :
    (handleUpdateQuestion questions q).length = questions.length ∧
    (∀ j : Nat, j < questions.length →
      (handleUpdateQuestion questions q).getD j defaultQ =
        (if (questions.getD j defaultQ).id = q.id then q else questions.getD j defaultQ)) ∧
    (∀ j : Nat, (questions.getD j defaultQ).id ≠ q.id →
      (handleUpdateQuestion questions q).getD j defaultQ = questions.getD j defaultQ) ∧
    ((∀ item ∈ questions, item.id ≠ q.id) → handleUpdateQuestion questions q = questions) :=
  ⟨handleUpdateQuestion_length questions q,
   fun j hj => handleUpdateQuestion_getD questions q j hj,
   fun j hid => handleUpdateQuestion_getD_ne questions q j hid,
   fun h => handleUpdateQuestion_no_match questions q h⟩

/-- Witness for C10 at concrete inputs: updating `sampleQ2` in a two-element
store keeps position 0 (a different id) unchanged, and updating it in a store
that does not contain its id returns the store unchanged. -/
theorem handleUpdateQuestion_frame_witness :
    ((0 : Nat) < ([sampleQ1, sampleQ2] : List Question).length ∧
      ([sampleQ1, sampleQ2].getD 0 defaultQ).id ≠ sampleQ2.id ∧
      (∀ item ∈ [sampleQ1], item.id ≠ sampleQ2.id)) ∧
    (handleUpdateQuestion [sampleQ1, sampleQ2] sampleQ2).getD 0 defaultQ =
      (if (([sampleQ1, sampleQ2] : List Question).getD 0 defaultQ).id = sampleQ2.id
       then sampleQ2 else [sampleQ1, sampleQ2].getD 0 defaultQ) ∧
    (handleUpdateQuestion [sampleQ1, sampleQ2] sampleQ2).getD 0 defaultQ =
      [sampleQ1, sampleQ2].getD 0 defaultQ ∧
    handleUpdateQuestion [sampleQ1] sampleQ2 = [sampleQ1] :=
  ⟨⟨by decide, by decide, by decide⟩,
   (handleUpdateQuestion_frame [sampleQ1, sampleQ2] sampleQ2).2.1 0 (by decide),
   (handleUpdateQuestion_frame [sampleQ1, sampleQ2] sampleQ2).2.2.1 0 (by decide),
   (handleUpdateQuestion_frame [sampleQ1] sampleQ2).2.2.2 (by decide)⟩

/-- C8 counterexample: at index 0 with the answer revealed, the 上一题 control
is disabled, so no transition fires: the state is unchanged and in particular
the reveal flag stays `true`, contradicting the claim that `previous()` resets
the reveal flag to `false` in all cases. -/
theorem prevButton_counterexample :
    prevButton sampleState = sampleState ∧
    (prevButton sampleState).showAnswer = true ∧
    ¬ (prevButton sampleState).showAnswer = false := by
  refine ⟨rfl, rfl, ?_⟩
  intro h
  simp [prevButton, sampleState] at h

/-- C8 (amended): when `0 < i` the previous-button transition goes to
`Active(i - 1, revealed = false)` (other state fields untouched); at `i = 0`
the control is disabled and the state — including the reveal flag — is
completely unchanged. -/
theorem prevButton_spec (st : ReviewState) :
    (st.currentExamIndex = 0 → prevButton st = st) ∧
    (0 < st.currentExamIndex →
      prevButton st =
        { st with currentExamIndex := st.currentExamIndex - 1, showAnswer := false }) := by
  constructor
  · intro h; simp [prevButton, h]
  · intro h
    have h0 : ¬ st.currentExamIndex = 0 := by omega
    simp [prevButton, h0]

/-- Witness for C8 (amended) at concrete inputs: from index 1 the transition
decrements the index and resets the reveal flag; at index 0 nothing changes. -/
theorem prevButton_spec_witness :
    ((0 : Nat) < sampleState1.currentExamIndex ∧ sampleState.currentExamIndex = 0) ∧
    prevButton sampleState1 =
      { sampleState1 with
          currentExamIndex := sampleState1.currentExamIndex - 1, showAnswer := false } ∧
    prevButton sampleState = sampleState :=
  ⟨⟨by decide, by decide⟩,
   (prevButton_spec sampleState1).2 (by decide),
   (prevButton_spec sampleState).1 (by decide)⟩

/-- C4: with the `priority` criterion and a non-empty filtered set, the pool
the session is started on is exactly a permutation of the `review_needed`
subset of the collection (same multiset, and the same multiset of ids — the
shuffle adds, drops and duplicates nothing), and every question in it has
`masteryStatus = review_needed`. -/
theorem startRandomExam_priority_pool (σ : Nat → Bool) (questions : List Question)
    (st : ReviewState)
    (h : questions.filter (fun q => q.masteryStatus = some .review_needed) ≠ []) :
    ((startRandomExam σ questions .priority st).1.examQuestions).Perm
      (questions.filter (fun q => q.masteryStatus = some .review_needed)) ∧
    (((startRandomExam σ questions .priority st).1.examQuestions).map (fun q => q.id)).Perm
      ((questions.filter (fun q => q.masteryStatus = some .review_needed)).map
        (fun q => q.id)) ∧
    (∀ q ∈ (startRandomExam σ questions .priority st).1.examQuestions,
      q.masteryStatus = some .review_needed) := by
  have hlen : ¬ (questions.filter (fun q => q.masteryStatus = some .review_needed)).length = 0 := by
    simpa [List.length_eq_zero] using h
  have hex : (startRandomExam σ questions .priority st).1.examQuestions =
      shuffleRand σ (questions.filter (fun q => q.masteryStatus = some .review_needed)) := by
    simp [startRandomExam, hlen]
  have hperm := shuffleRand_perm σ
    (questions.filter (fun q => q.masteryStatus = some .review_needed))
  refine ⟨hex ▸ hperm, hex ▸ (hperm.map (fun q => q.id)), ?_⟩
  intro q hq
  rw [hex] at hq
  have hmem : q ∈ questions.filter (fun q => q.masteryStatus = some .review_needed) :=
    hperm.mem_iff.mp hq
  have := (List.mem_filter.mp hmem).2
  exact of_decide_eq_true this

/-- Witness for C4 at a concrete input: over `[sampleQ1, sampleQ2]` (only
`sampleQ1` needs review) the priority pool is a permutation of `[sampleQ1]`
and contains only review-needed questions. -/
theorem startRandomExam_priority_pool_witness :
    ([sampleQ1, sampleQ2].filter (fun q => q.masteryStatus = some .review_needed) ≠ []) ∧
    ((startRandomExam (fun _ => true) [sampleQ1, sampleQ2] .priority
        sampleState).1.examQuestions).Perm
      ([sampleQ1, sampleQ2].filter (fun q => q.masteryStatus = some .review_needed)) ∧
    (∀ q ∈ (startRandomExam (fun _ => true) [sampleQ1, sampleQ2] .priority
        sampleState).1.examQuestions,
      q.masteryStatus = some .review_needed) :=
  ⟨by decide,
   (startRandomExam_priority_pool (fun _ => true) [sampleQ1, sampleQ2] sampleState
      (by decide)).1,
   (startRandomExam_priority_pool (fun _ => true) [sampleQ1, sampleQ2] sampleState
      (by decide)).2.2⟩

/-! ## Period keys: rendering structure and injectivity -/

theorem getPeriodKey_data (d : JSDate) :
    (getPeriodKey d).data =
      (Nat.repr d.year).data ++ '年' ::
        ((Nat.repr d.month).data ++ '月' ::
          (if d.day ≤ 15 then "上半月" else "下半月").data) := by
  simp only [getPeriodKey, String.data_append, List.append_assoc]
  rfl

theorem getPeriodKey_eq_iff (d1 d2 : JSDate) :
    getPeriodKey d1 = getPeriodKey d2 ↔
      (d1.year = d2.year ∧ d1.month = d2.month ∧ (d1.day ≤ 15 ↔ d2.day ≤ 15)) := by
  constructor
  · intro h
    have hd := congrArg String.data h
    rw [getPeriodKey_data, getPeriodKey_data] at hd
    obtain ⟨hy, hrest⟩ :=
      digits_sep_split (by decide : ('年' : Char).isDigit = false) _ _ _ _
        (repr_all_digits d1.year) (repr_all_digits d2.year) hd
    obtain ⟨hm, hpart⟩ :=
      digits_sep_split (by decide : ('月' : Char).isDigit = false) _ _ _ _
        (repr_all_digits d1.month) (repr_all_digits d2.month) hrest
    refine ⟨repr_injective (String.ext hy), repr_injective (String.ext hm), ?_⟩
    constructor
    · intro h1
      by_contra h2
      rw [if_pos h1, if_neg h2] at hpart
      exact absurd hpart (by decide)
    · intro h2
      by_contra h1
      rw [if_neg h1, if_pos h2] at hpart
      exact absurd hpart (by decide)
  · rintro ⟨hy, hm, hh⟩
    simp only [getPeriodKey, hy, hm]
    rw [if_congr hh rfl rfl]

/-- C2: two timestamps (given by their derived civil dates) receive the same
period key iff they agree on calendar year, calendar month and half-month
(first half iff day-of-month ≤ 15); in particular the 15th and the 16th of
the same month receive different keys. -/
theorem getPeriodKey_same_iff (d1 d2 : JSDate) :
    (getPeriodKey d1 = getPeriodKey d2 ↔
      (d1.year = d2.year ∧ d1.month = d2.month ∧ (d1.day ≤ 15 ↔ d2.day ≤ 15))) ∧
    (∀ y m : Nat, getPeriodKey ⟨y, m, 15⟩ ≠ getPeriodKey ⟨y, m, 16⟩) := by
  refine ⟨getPeriodKey_eq_iff d1 d2, ?_⟩
  intro y m h
  have h3 := ((getPeriodKey_eq_iff ⟨y, m, 15⟩ ⟨y, m, 16⟩).mp h).2.2
  have h4 : (16 : Nat) ≤ 15 := h3.mp (by norm_num)
  omega

theorem parse_getPeriodKey (d : JSDate) :
    parse (getPeriodKey d) =
      d.year * 1000 + d.month * 10 + (if d.day ≤ 15 then 0 else 1) := by
  have h1 := takeWhile_all_append (p := fun c => c.isDigit) (Nat.repr d.year).data '年'
      ((Nat.repr d.month).data ++ '月' :: (if d.day ≤ 15 then "上半月" else "下半月").data)
      (repr_all_digits d.year) (by decide)
  have h2 := takeWhile_all_append (p := fun c => c.isDigit) (Nat.repr d.month).data '月'
      (if d.day ≤ 15 then "上半月" else "下半月").data (repr_all_digits d.month) (by decide)
  have hnil1 := repr_data_ne_nil d.year
  have hnil2 := repr_data_ne_nil d.month
  have hnil3 : (if d.day ≤ 15 then "上半月" else "下半月").data ≠ [] := by
    split <;> decide
  simp only [parse, String.toList]
  rw [getPeriodKey_data d, h1.1, h1.2]
  simp only [if_pos rfl]
  rw [h2.1, h2.2]
  simp only [if_pos rfl, hnil1, hnil2, hnil3, or_self, if_false, false_or, if_neg]
  rw [decodeDigits_repr, decodeDigits_repr]
  by_cases hday : d.day ≤ 15
  · rw [if_pos hday, if_pos hday,
      if_pos (by decide : String.mk ("上半月" : String).data = "上半月")]
    simp
  · rw [if_neg hday, if_neg hday,
      if_neg (by decide : ¬ String.mk ("下半月" : String).data = "上半月")]
    simp

/-- C3: the presented period ordering is a permutation of the keys, pairwise
descending by the comparator value `parse`; on keys rendered by
`getPeriodKey`, `parse` computes exactly `year * 1000 + month * 10 + half`
(half 0 for the first half, 1 for the second); in particular the 2025-January
first-half key sorts before the 2024-December second-half key. -/
theorem sortPeriods_spec (ks : List String) :
    (sortPeriods ks).Perm ks ∧
    (sortPeriods ks).Pairwise (fun a b => parse b ≤ parse a) ∧
    (∀ d : JSDate, parse (getPeriodKey d) =
      d.year * 1000 + d.month * 10 + (if d.day ≤ 15 then 0 else 1)) ∧
    sortPeriods ["2024年12月下半月", "2025年1月上半月"] =
      ["2025年1月上半月", "2024年12月下半月"] :=
  ⟨List.perm_insertionSort _ ks, List.sorted_insertionSort _ ks, parse_getPeriodKey, by decide⟩

/-- C1: from a valid position `i` in the exam pool, `handleNext` (the
`advance()` transition) bumps exactly the current question's `reviewCount` by
one and stamps its `lastReviewedAt` with the current time, leaves every other
pool entry and every differently-id'd store record unchanged, and then either
moves to `Active(i + 1, revealed = false)` when `i < length - 1` or leaves
exam mode (`Finished`) otherwise. -/
theorem handleNext_advance (now : Nat) (st : ReviewState) (questions : List Question)
    (h : st.currentExamIndex < st.examQuestions.length) :
    ((handleNext now st questions).1.examQuestions.length = st.examQuestions.length) ∧
    ((handleNext now st questions).1.examQuestions.getD st.currentExamIndex defaultQ =
      { st.examQuestions.getD st.currentExamIndex defaultQ with
          reviewCount := (st.examQuestions.getD st.currentExamIndex defaultQ).reviewCount + 1
          lastReviewedAt := some now }) ∧
    (∀ j : Nat, j ≠ st.currentExamIndex →
      (handleNext now st questions).1.examQuestions.getD j defaultQ =
        st.examQuestions.getD j defaultQ) ∧
    (∀ j : Nat, (questions.getD j defaultQ).id ≠
        (st.examQuestions.getD st.currentExamIndex defaultQ).id →
      (handleNext now st questions).2.getD j defaultQ = questions.getD j defaultQ) ∧
    (st.currentExamIndex < st.examQuestions.length - 1 →
      (handleNext now st questions).1.currentExamIndex = st.currentExamIndex + 1 ∧
      (handleNext now st questions).1.showAnswer = false ∧
      (handleNext now st questions).1.mode = st.mode) ∧
    (¬ st.currentExamIndex < st.examQuestions.length - 1 →
      (handleNext now st questions).1.mode = .list) := by
  have hex : (handleNext now st questions).1.examQuestions =
      st.examQuestions.set st.currentExamIndex
        { st.examQuestions.getD st.currentExamIndex defaultQ with
            reviewCount := (st.examQuestions.getD st.currentExamIndex defaultQ).reviewCount + 1
            lastReviewedAt := some now } := by
    simp only [handleNext]
    split <;> rfl
  have hglob : (handleNext now st questions).2 =
      handleUpdateQuestion questions
        { st.examQuestions.getD st.currentExamIndex defaultQ with
            reviewCount := (st.examQuestions.getD st.currentExamIndex defaultQ).reviewCount + 1
            lastReviewedAt := some now } := by
    simp only [handleNext]
    split <;> rfl
  refine ⟨?_, ?_, ?_, ?_, ?_, ?_⟩
  · rw [hex, List.length_set]
  · rw [hex, List.getD_eq_getElem?_getD, List.getElem?_set_self h, Option.getD_some]
  · intro j hj
    rw [hex, List.getD_eq_getElem?_getD, List.getElem?_set_ne (Ne.symm hj),
      ← List.getD_eq_getElem?_getD]
  · intro j hid
    rw [hglob]
    exact handleUpdateQuestion_getD_ne questions _ j hid
  · intro hlt
    refine ⟨?_, ?_, ?_⟩ <;> (simp only [handleNext]; rw [if_pos hlt])
  · intro hlt
    simp only [handleNext]
    rw [if_neg hlt]

/-- Witness for C1 at a concrete input: over a two-question pool at index 0
with `now = 42`, advancing bumps the first question's stats, keeps the second
question and the differently-id'd store record intact, and moves to
`Active(1, false)`. -/
theorem handleNext_advance_witness :
    (sampleState.currentExamIndex < sampleState.examQuestions.length ∧
      (1 : Nat) ≠ sampleState.currentExamIndex ∧
      (([sampleQ2] : List Question).getD 0 defaultQ).id ≠
        (sampleState.examQuestions.getD sampleState.currentExamIndex defaultQ).id ∧
      sampleState.currentExamIndex < sampleState.examQuestions.length - 1) ∧
    ((handleNext 42 sampleState [sampleQ2]).1.examQuestions.getD
        sampleState.currentExamIndex defaultQ =
      { sampleState.examQuestions.getD sampleState.currentExamIndex defaultQ with
          reviewCount :=
            (sampleState.examQuestions.getD sampleState.currentExamIndex defaultQ).reviewCount
              + 1
          lastReviewedAt := some 42 }) ∧
    ((handleNext 42 sampleState [sampleQ2]).1.examQuestions.getD 1 defaultQ =
      sampleState.examQuestions.getD 1 defaultQ) ∧
    ((handleNext 42 sampleState [sampleQ2]).2.getD 0 defaultQ =
      ([sampleQ2] : List Question).getD 0 defaultQ) ∧
    (handleNext 42 sampleState [sampleQ2]).1.currentExamIndex =
      sampleState.currentExamIndex + 1 ∧
    (handleNext 42 sampleState [sampleQ2]).1.showAnswer = false :=
  ⟨⟨by decide, by decide, by decide, by decide⟩,
   (handleNext_advance 42 sampleState [sampleQ2] (by decide)).2.1,
   (handleNext_advance 42 sampleState [sampleQ2] (by decide)).2.2.1 1 (by decide),
   (handleNext_advance 42 sampleState [sampleQ2] (by decide)).2.2.2.1 0 (by decide),
   ((handleNext_advance 42 sampleState [sampleQ2] (by decide)).2.2.2.2.1 (by decide)).1,
   ((handleNext_advance 42 sampleState [sampleQ2] (by decide)).2.2.2.2.1 (by decide)).2.1⟩

/-! ## Creation ids -/

theorem createRun_foldl (ops : List (Nat × AddForm)) :
    ∀ (acc : List Question),
      ops.foldl (fun qs op => handleSaveQuestion (handleSave op.1 op.2) qs) acc
        = (ops.map (fun op => handleSave op.1 op.2)).reverse ++ acc := by
  induction ops with
  | nil => intro acc; simp
  | cons op ops ih =>
    intro acc
    rw [List.foldl_cons, ih]
    simp [handleSaveQuestion, List.append_assoc]

/-- C9 counterexample: the id is `Date.now().toString()`, so two save
operations that fire in the same millisecond (timestamp 1000) produce two
distinct question records carrying the same id, both present in the store —
ids are not unique across every sequence of creation operations. -/
theorem handleSave_id_collision :
    handleSave 1000 sampleForm ≠ handleSave 1000 sampleFormB ∧
    (handleSave 1000 sampleForm).id = (handleSave 1000 sampleFormB).id ∧
    handleSave 1000 sampleForm ∈ createRun [(1000, sampleForm), (1000, sampleFormB)] ∧
    handleSave 1000 sampleFormB ∈ createRun [(1000, sampleForm), (1000, sampleFormB)] :=
  ⟨by decide, by decide, by decide, by decide⟩

/-- C9 (amended): creation ids are pairwise distinct provided the creation
timestamps are pairwise distinct (the millisecond clock never produces the
same value twice across the run); with equal timestamps uniqueness fails, as
the counterexample shows. -/
theorem createRun_unique_ids (ops : List (Nat × AddForm))
    (h : (ops.map (fun op => op.1)).Pairwise (fun a b => a ≠ b)) :
    ((createRun ops).map (fun q => q.id)).Pairwise (fun a b => a ≠ b) := by
  have hrun : createRun ops = (ops.map (fun op => handleSave op.1 op.2)).reverse := by
    have h0 := createRun_foldl ops []
    simpa [createRun] using h0
  have h' : ops.Pairwise (fun o1 o2 => o1.1 ≠ o2.1) := List.pairwise_map.mp h
  have h2 : ops.Pairwise
      (fun o1 o2 => (handleSave o1.1 o1.2).id ≠ (handleSave o2.1 o2.2).id) :=
    h'.imp (fun hne heq => hne (repr_injective heq))
  rw [hrun, ← List.map_reverse]
  refine List.pairwise_map.mpr ?_
  refine List.pairwise_map.mpr ?_
  refine List.pairwise_reverse.mpr ?_
  exact h2.imp (fun hne => Ne.symm hne)

/-- Witness for C9 (amended) at a concrete input: two creations at distinct
timestamps 1 and 2 yield a store whose ids are pairwise distinct. -/
theorem createRun_unique_ids_witness :
    (([(1, sampleForm), (2, sampleFormB)].map (fun op => op.1)).Pairwise
      (fun a b => a ≠ b)) ∧
    ((createRun [(1, sampleForm), (2, sampleFormB)]).map (fun q => q.id)).Pairwise
      (fun a b => a ≠ b) :=
  ⟨by decide, createRun_unique_ids [(1, sampleForm), (2, sampleFormB)] (by decide)⟩

/-- C7 counterexample: with a present but corrupt blob (`"corrupt"` is not
valid JSON), `loadQuestions` propagates the thrown parse error — it does not
return the empty collection (nor any collection). -/
theorem loadQuestions_corrupt :
    loadQuestions (some "corrupt") = Except.error "Unexpected token" ∧
    loadQuestions (some "corrupt") ≠ Except.ok (Json.arr []) :=
  ⟨rfl, fun h =>
    Except.noConfusion
      ((rfl : loadQuestions (some "corrupt") = Except.error "Unexpected token").symm.trans h)⟩

/-- C7 (amended): an absent blob loads as the empty collection; a blob the
parser accepts loads as its parsed value; a corrupt blob is NOT treated as an
empty collection — the parse error propagates uncaught out of
`loadQuestions`. -/
theorem loadQuestions_spec (s : String) :
    loadQuestions none = Except.ok (Json.arr []) ∧
    (∀ e : String, parseJson s = Except.error e →
      loadQuestions (some s) = Except.error e) ∧
    (∀ v : Json, parseJson s = Except.ok v → loadQuestions (some s) = Except.ok v) :=
  ⟨rfl, fun e he => he, fun v hv => hv⟩

/-- Witness for C7 (amended) at concrete inputs: the empty slot loads as the
empty array, the corrupt blob `"corrupt"` errors, and the stored blob `"[]"`
loads as the empty array. -/
theorem loadQuestions_spec_witness :
    (parseJson "corrupt" = Except.error "Unexpected token" ∧
      parseJson "[]" = Except.ok (Json.arr [])) ∧
    loadQuestions none = Except.ok (Json.arr []) ∧
    loadQuestions (some "corrupt") = Except.error "Unexpected token" ∧
    loadQuestions (some "[]") = Except.ok (Json.arr []) :=
  ⟨⟨rfl, rfl⟩, (loadQuestions_spec "corrupt").1,
   (loadQuestions_spec "corrupt").2.1 "Unexpected token" rfl,
   (loadQuestions_spec "[]").2.2 (Json.arr []) rfl⟩
